import Mathlib

/-!
Verification development for the HypnoS adaptive position evaluation engine
(evaluate.cpp, nnue/evaluate_nnue.cpp, ucioption.cpp).

The C++ sources are shallowly embedded: machine `int` values become `Int`
(the inspected arithmetic never overflows 32 bits on the inputs considered),
C++ integer division (truncation toward zero) becomes `cppDiv`, `float`
arithmetic on small integers becomes exact rational arithmetic written
over a common positive denominator (so a float comparison becomes the
integer comparison with that denominator cleared, and `static_cast<int>`
of a float quotient becomes truncation toward zero, `Int.tdiv`), and the
process-wide mutable style state becomes explicit state records threaded
through step functions.  Board positions are abstracted to the numeric
quantities the embedded functions actually read (positional indicators,
piece counts, node counts, scores).
-/

/-- C++ integer division: truncation toward zero (for a positive divisor). -/
def cppDiv (a b : Int) : Int := if 0 ≤ a then a / b else -((-a) / b)

/-- std::clamp on int. -/
def clampI (v lo hi : Int) : Int := if v < lo then lo else if hi < v then hi else v

/-- std::ceil applied to the (modelled-as-exact) quotient of an int by a
positive int: the ceiling is the negated floor of the negation. -/
def cppCeilDiv (a b : Int) : Int := -((-a) / b)

/-- Modelled from the spec: the output scaling constant of the learned
network (`OutputScale`, defined in nnue/nnue_architecture.h which is not
under src/); the spec calls it `outputScale`.  Upstream value 16. -/
def OutputScale : Int := 16

/-- Modelled from the spec: the tablebase-win sentinel
(`VALUE_TB_WIN_IN_MAX_PLY`, defined in types.h which is not under src/).
The spec speaks of the non-terminal score range bounded by the tablebase
win/loss sentinel values; upstream value 31507. -/
def VALUE_TB_WIN_IN_MAX_PLY : Int := 31507

/-- Modelled from the spec: the tablebase-loss sentinel
(`VALUE_TB_LOSS_IN_MAX_PLY`, types.h, not under src/); the negation of the
win sentinel. -/
def VALUE_TB_LOSS_IN_MAX_PLY : Int := -31507

/-- evaluate.h: buffer for insignificant score variations. -/
def toleranceBuffer : Int := 15

namespace NNUE

/-- The two global strategy weights
(`StrategyMaterialWeight`, `StrategyPositionalWeight`). -/
structure StrategyWeights where
  strategyMaterialWeight : Int
  strategyPositionalWeight : Int
  deriving DecidableEq

/-- evaluate_nnue.cpp, `NNUE::evaluate(Value, Value, int, bool)`:
the pure blend of psqt and positional network outputs. -/
def evaluateBlend (w : StrategyWeights) (psqt positional delta : Int)
    (adjusted : Bool) : Int :=
  let scaleFactor : Int := 1024 * OutputScale
  if adjusted then
    let materialWeight := 1024 - delta + w.strategyMaterialWeight
    let positionalWeight := 1024 + delta + w.strategyPositionalWeight
    cppDiv (materialWeight * psqt + positionalWeight * positional) scaleFactor
  else
    cppDiv (psqt + positional) OutputScale

/-- evaluate_nnue.cpp, `NNUE::evaluate<Net_Size>` on abstract transformer
and layer-stack outputs: the positional term is zero when `psqtOnly` is
set, and the blend is always invoked with `delta = 24`. -/
def evaluateTier (w : StrategyWeights) (psqt positionalRaw : Int)
    (adjusted psqtOnly : Bool) : Int :=
  let positional := if psqtOnly then 0 else positionalRaw
  evaluateBlend w psqt positional 24 adjusted

/-- Follows the spec's words (spec refinement reference, not a source
translation): "compute score = ((1024 − δ + materialWeight)·psqt +
(1024 + δ + positionalWeight)·positional) / (1024 × outputScale) with a
fixed δ; otherwise score = (psqt + positional) / outputScale". -/
def specBlend (materialWeight positionalWeight psqt positional delta : Int)
    (adjusted : Bool) : Int :=
  if adjusted then
    cppDiv ((1024 - delta + materialWeight) * psqt
            + (1024 + delta + positionalWeight) * positional)
      (1024 * OutputScale)
  else
    cppDiv (psqt + positional) OutputScale

end NNUE

namespace NNUE

/-- The architecture-dependent constants of one network tier.  `version`
and the hash constants live in nnue_common.h / evaluate_nnue.h; the sizes
of the feature-transformer and per-bucket sub-network parameter blocks are
modelled from the spec: "feature-transformer parameter block; for each of
a fixed number of layer buckets, one sub-network parameter block" (the
block-reading code of nnue_feature_transformer.h / nnue_architecture.h is
not under src/, so a block is modelled as a fixed-length byte blob). -/
structure Arch where
  version : Nat
  hashValue : Nat
  ftHash : Nat
  netHash : Nat
  ftLen : Nat
  netLen : Nat
  layerStacks : Nat
  deriving DecidableEq

/-- The 32-bit constants of an architecture fit in 32 bits. -/
def Arch.WF (a : Arch) : Prop :=
  a.version < 2 ^ 32 ∧ a.hashValue < 2 ^ 32 ∧ a.ftHash < 2 ^ 32
    ∧ a.netHash < 2 ^ 32

instance (a : Arch) : Decidable a.WF := by unfold Arch.WF; infer_instance

/-- The parameter storage of one tier: the feature-transformer block and
one block per layer stack. -/
structure NetParams where
  ft : List Nat
  nets : List (List Nat)
  deriving DecidableEq

/-- Per-tier mutable state touched by load_eval / save_eval:
`params` is the parameter storage, `fileName` is
`NNUE::fileName[netSize]`, `netDescription` is
`NNUE::netDescription[netSize]`, and `selectedName` is the
`EvalFiles[netSize].selected_name` record that only the caller
(`NNUE::init`) mutates, on success. -/
structure TierState where
  params : NetParams
  fileName : String
  netDescription : List Nat
  selectedName : String
  deriving DecidableEq

/-- evaluate_nnue.cpp `initialize(netSize)` + Detail: allocation is redone
and zero-initialized (memset 0) on every load. -/
def initParams (a : Arch) : NetParams :=
  { ft := List.replicate a.ftLen 0
    nets := List.replicate a.layerStacks (List.replicate a.netLen 0) }

/-- nnue_common.h `read_little_endian<std::uint32_t>`: reads four bytes,
little endian; the stream enters the failed state if exhausted. -/
def readU32 : List Nat → Option (Nat × List Nat)
  | b0 :: b1 :: b2 :: b3 :: rest =>
      some (b0 + 256 * (b1 + 256 * (b2 + 256 * b3)), rest)
  | _ => none

/-- `stream.read(buf, n)`: reads exactly n bytes or fails. -/
def readBytes (n : Nat) (s : List Nat) : Option (List Nat × List Nat) :=
  if n ≤ s.length then some (s.take n, s.drop n) else none

/-- nnue_common.h `write_little_endian<std::uint32_t>`. -/
def writeU32 (v : Nat) : List Nat :=
  [v % 256, v / 256 % 256, v / 65536 % 256, v / 16777216 % 256]

/-- evaluate_nnue.cpp `read_header`: version, file hash and description
length (little-endian u32 each), then the description bytes; fails on
stream exhaustion or version mismatch. -/
def read_header (a : Arch) (s : List Nat) :
    Option (Nat × List Nat × List Nat) := do
  let (version, s) ← readU32 s
  let (hashValue, s) ← readU32 s
  let (size, s) ← readU32 s
  if version ≠ a.version then none
  else do
    let (desc, s) ← readBytes size s
    pure (hashValue, desc, s)

/-- evaluate_nnue.cpp `Detail::read_parameters`: a little-endian u32 block
hash which must equal the block type's hash value, then the block's own
parameters (modelled from the spec as a fixed-length blob, the reading
code being outside src/). -/
def readBlock (expectedHash len : Nat) (s : List Nat) :
    Option (List Nat × List Nat) := do
  let (header, s) ← readU32 s
  if header ≠ expectedHash then none else readBytes len s

/-- evaluate_nnue.cpp `write_header`. -/
def write_header (a : Arch) (hashValue : Nat) (desc : List Nat) : List Nat :=
  writeU32 a.version ++ writeU32 hashValue ++ writeU32 desc.length ++ desc

/-- evaluate_nnue.cpp `Detail::write_parameters`: block hash then blob. -/
def writeBlock (hashValue : Nat) (blob : List Nat) : List Nat :=
  writeU32 hashValue ++ blob

/-- evaluate_nnue.cpp `write_parameters(stream, netSize)`: header with the
tier's expected hash and recorded description, the feature-transformer
block, then one block per layer stack. -/
def write_parameters (a : Arch) (st : TierState) : List Nat :=
  write_header a a.hashValue st.netDescription
    ++ writeBlock a.ftHash st.params.ft
    ++ (st.params.nets.map (writeBlock a.netHash)).flatten

/-- The layer-stack reading loop of `read_parameters(stream, netSize)`,
with `n` blocks still to read and `i` the index of the next one (the
loop runs for i = 0 .. LayerStacks-1, so it is entered with
n = a.layerStacks and i = 0): each successfully read block is written
into the (zero-initialized) storage in order; after the last block,
success requires the stream to be good and at end of file
(`stream.peek() == eof`). -/
def loadNets (a : Arch) : Nat → Nat → List Nat → TierState →
    Bool × TierState
  | 0, _i, s, st => (decide (s = []), st)
  | n + 1, i, s, st =>
    match readBlock a.netHash a.netLen s with
    | none => (false, st)
    | some (blob, s') =>
        loadNets a n (i + 1) s'
          { st with params :=
              { st.params with nets := st.params.nets.set i blob } }

/-- evaluate_nnue.cpp `load_eval` composed with `read_parameters`: the
storage is reinitialized (zeroed) and the file name recorded before any
parsing; the header's description is stored once the header is read; the
file hash must equal the tier's expected hash; then the
feature-transformer block and the layer-stack blocks are read in place. -/
def load_eval (a : Arch) (name : String) (s : List Nat) (st : TierState) :
    Bool × TierState :=
  let st := { st with params := initParams a, fileName := name }
  match read_header a s with
  | none => (false, st)
  | some (hashValue, desc, s) =>
    let st := { st with netDescription := desc }
    if hashValue ≠ a.hashValue then (false, st)
    else
      match readBlock a.ftHash a.ftLen s with
      | none => (false, st)
      | some (ft, s) =>
        let st := { st with params := { st.params with ft := ft } }
        loadNets a a.layerStacks 0 s st

/-- evaluate_nnue.cpp `save_eval(stream, netSize)`: fails when no file
name has been recorded for the tier; otherwise writes the header followed
by the parameter blocks (in-memory stream writes do not fail). -/
def save_eval (a : Arch) (st : TierState) : Option (List Nat) :=
  if st.fileName = "" then none else some (write_parameters a st)

/-- A stream that `read_parameters` accepts for architecture `a`: a
well-formed header carrying the tier's expected hash, the
feature-transformer block, exactly `layerStacks` sub-network blocks, and
nothing after. -/
def ValidStream (a : Arch) (s : List Nat) : Prop :=
  ∃ desc ft blobs,
    List.length desc < 2 ^ 32 ∧ List.length ft = a.ftLen
      ∧ List.length blobs = a.layerStacks
      ∧ (∀ b ∈ blobs, List.length b = a.netLen)
      ∧ s = write_header a a.hashValue desc ++ writeBlock a.ftHash ft
              ++ (blobs.map (writeBlock a.netHash)).flatten

end NNUE

namespace Eval

/-- evaluate.h `enum class Style`. -/
inductive Style where
  | Tal
  | Petrosian
  | Capablanca
  deriving DecidableEq

/-- evaluate.h `struct ShashinStyle` (field order as declared). -/
structure ShashinStyle where
  aggressivityWeight : Int
  positionalWeight : Int
  defensiveWeight : Int
  attack : Int
  defense : Int
  balance : Int
  deriving DecidableEq

/-- evaluate.h `struct PositionalIndicators`. -/
structure PositionalIndicators where
  kingSafety : Int
  openFileControl : Int
  centerDominance : Int
  materialImbalance : Int
  centerControl : Int
  flankControl : Int
  pieceActivity : Int
  defensivePosition : Int
  deriving DecidableEq

/-- The process-wide mutable style state of evaluate.cpp and
evaluate_nnue.cpp: the globals (CurrentStyle, the three hysteresis values,
the three usage counters, moveCounter, lastScore, lastNodeTrigger, the
NNUE strategy weights) together with the function-local statics of
dynamic_shashin_style (lastStyle, lastChangeNodes), of
apply_penalty_progression (the three consecutive-dominance counters) and
of NNUE::update_weights (lastPhase and the three last weights). -/
structure StyleState where
  currentStyle : ShashinStyle
  hysteresisTal : Int
  hysteresisPetrosian : Int
  hysteresisCapablanca : Int
  talCount : Int
  petrosianCount : Int
  capablancaCount : Int
  moveCounter : Int
  lastScore : Int
  lastNodeTrigger : Int
  lastStyle : Style
  lastChangeNodes : Int
  consecutiveTal : Int
  consecutivePetrosian : Int
  consecutiveCapablanca : Int
  nnueLastPhase : Int
  nnueLastTal : Int
  nnueLastPetrosian : Int
  nnueLastCapablanca : Int
  strategy : NNUE.StrategyWeights
  deriving DecidableEq

/-- The initial values of the globals and statics at process start. -/
def initialStyleState : StyleState :=
  { currentStyle := ⟨0, 0, 0, 0, 0, 0⟩
    hysteresisTal := 200
    hysteresisPetrosian := 300
    hysteresisCapablanca := 100
    talCount := 0
    petrosianCount := 0
    capablancaCount := 0
    moveCounter := 0
    lastScore := 0
    lastNodeTrigger := 0
    lastStyle := Style.Capablanca
    lastChangeNodes := 0
    consecutiveTal := 0
    consecutivePetrosian := 0
    consecutiveCapablanca := 0
    nnueLastPhase := -1
    nnueLastTal := -1
    nnueLastPetrosian := -1
    nnueLastCapablanca := -1
    strategy := ⟨0, 0⟩ }

/-- evaluate.cpp `set_shashin_style(Style)`: the per-style constants. -/
def styleConstants : Style → ShashinStyle
  | Style.Tal => ⟨25, 5, 0, 25, 3, 0⟩
  | Style.Capablanca => ⟨10, 15, 10, 10, 15, 10⟩
  | Style.Petrosian => ⟨0, 5, 25, 0, 3, 25⟩

/-- evaluate.cpp `set_shashin_style(Style)`. -/
def set_shashin_style (st : Style) (s : StyleState) : StyleState :=
  { s with currentStyle := styleConstants st }

/-- evaluate.cpp `set_shashin_style(const std::string&)`: forces the
neutral style when "Use Shashin Style" is off, otherwise selects by name
with Capablanca as the fallback for invalid input. -/
def set_shashin_style_str (useStyle : Bool) (name : String) (s : StyleState) :
    StyleState :=
  if !useStyle then { s with currentStyle := ⟨0, 0, 0, 0, 0, 0⟩ }
  else if name = "Tal" then set_shashin_style Style.Tal s
  else if name = "Capablanca" then set_shashin_style Style.Capablanca s
  else if name = "Petrosian" then set_shashin_style Style.Petrosian s
  else set_shashin_style Style.Capablanca s

/-- evaluate.cpp `set_shashin_custom_blend`: the float style fractions
talWeight/total etc. are exact rationals over the common denominator
totalWeight, so static_cast<int>(25·talRatio + 10·capablancaRatio +
0·petrosianRatio) is the truncation toward zero of
(25·tal + 10·capablanca + 0·petrosian) / totalWeight, written with
`Int.tdiv`. -/
def set_shashin_custom_blend (talWeight petrosianWeight capablancaWeight : Int)
    (s : StyleState) : StyleState :=
  let totalWeight := talWeight + petrosianWeight + capablancaWeight
  if totalWeight = 0 then set_shashin_style Style.Capablanca s
  else
    { s with currentStyle := { s.currentStyle with
        attack := clampI (Int.tdiv (25 * talWeight + 10 * capablancaWeight
          + 0 * petrosianWeight) totalWeight) 0 30
        defense := clampI (Int.tdiv (5 * talWeight + 15 * capablancaWeight
          + 25 * petrosianWeight) totalWeight) 0 30
        balance := clampI (Int.tdiv (10 * talWeight + 10 * capablancaWeight
          + 5 * petrosianWeight) totalWeight) 0 30 } }

/-- evaluate.cpp `apply_penalty_progression`: consecutive-dominance
bookkeeping followed by the three unclamped hysteresis adjustments. -/
def apply_penalty_progression (s : StyleState) : StyleState :=
  let s :=
    if s.currentStyle.attack > 10 then
      { s with consecutiveTal := s.consecutiveTal + 1
               consecutivePetrosian := 0, consecutiveCapablanca := 0 }
    else if s.currentStyle.defense > 10 then
      { s with consecutivePetrosian := s.consecutivePetrosian + 1
               consecutiveTal := 0, consecutiveCapablanca := 0 }
    else
      { s with consecutiveCapablanca := s.consecutiveCapablanca + 1
               consecutiveTal := 0, consecutivePetrosian := 0 }
  let s :=
    if s.consecutiveTal > 5 then
      { s with hysteresisTal := s.hysteresisTal + 10
               hysteresisPetrosian := s.hysteresisPetrosian - 5
               hysteresisCapablanca := s.hysteresisCapablanca - 5
               consecutiveTal := 0 }
    else s
  let s :=
    if s.consecutivePetrosian > 5 then
      { s with hysteresisPetrosian := s.hysteresisPetrosian + 10
               hysteresisTal := s.hysteresisTal - 5
               hysteresisCapablanca := s.hysteresisCapablanca - 5
               consecutivePetrosian := 0 }
    else s
  if s.consecutiveCapablanca > 5 then
    { s with hysteresisCapablanca := s.hysteresisCapablanca - 10
             hysteresisTal := s.hysteresisTal + 5
             hysteresisPetrosian := s.hysteresisPetrosian + 5
             consecutiveCapablanca := 0 }
  else s


/-- The hysteresis-adjustment stage of evaluate.cpp
`recalibrate_parameters` (the five conditional adjustments followed by
the three clamps).  The float usage fractions talCount/totalStyles etc.
are exact rationals with the positive denominator totalStyles (usage
counts are non-negative and their sum is non-zero on this path), so
talRatio > 0.5 becomes 2·talCount > totalStyles, petrosianRatio > 0.5
becomes 2·petrosianCount > totalStyles, and capablancaRatio < 0.2
becomes 5·capablancaCount < totalStyles. -/
def recalibrate_hysteresis (bestPreviousScore score : Int)
    (s : StyleState) : StyleState :=
  let totalStyles := s.talCount + s.petrosianCount + s.capablancaCount
  let deltaScore := |bestPreviousScore - score|
  let s := if deltaScore > cppDiv s.hysteresisTal 2 then
      { s with hysteresisTal := s.hysteresisTal + 10 } else s
  let s := if deltaScore < cppDiv s.hysteresisCapablanca 3 then
      { s with hysteresisCapablanca := s.hysteresisCapablanca - 5 } else s
  let s := if 2 * s.talCount > totalStyles then
      { s with hysteresisTal := s.hysteresisTal + 100
               hysteresisCapablanca := s.hysteresisCapablanca - 40
               hysteresisPetrosian := s.hysteresisPetrosian - 20 } else s
  let s := if 2 * s.petrosianCount > totalStyles then
      { s with hysteresisPetrosian := s.hysteresisPetrosian + 10
               hysteresisTal := s.hysteresisTal - 5
               hysteresisCapablanca := s.hysteresisCapablanca - 5 } else s
  let s := if 5 * s.capablancaCount < totalStyles then
      { s with hysteresisCapablanca := s.hysteresisCapablanca - 50
               hysteresisTal := s.hysteresisTal + 30 } else s
  { s with
      hysteresisTal := clampI s.hysteresisTal 150 500
      hysteresisPetrosian := clampI s.hysteresisPetrosian 100 400
      hysteresisCapablanca := clampI s.hysteresisCapablanca 30 200 }

/-- The closing stage of evaluate.cpp `recalibrate_parameters`: the
move-counter increment and the forced-Capablanca enforcement branch. -/
def recalibrate_enforce (useStyle : Bool) (totalStyles : Int)
    (s : StyleState) : StyleState :=
  let s := { s with moveCounter := s.moveCounter + 1 }
  if s.moveCounter > 50 ∧ s.capablancaCount < cppDiv totalStyles 3 then
    { set_shashin_style_str useStyle "Capablanca" s with moveCounter := 0 }
  else s

/-- evaluate.cpp `recalibrate_parameters(Value)`: exits before any clamp
when no style use has been counted.  `bestPreviousScore` is
`Threads.main()->bestPreviousScore` and `useStyle` the "Use Shashin
Style" option read by the `set_shashin_style("Capablanca")` call on the
enforcement branch. -/
def recalibrate_parameters (useStyle : Bool) (bestPreviousScore score : Int)
    (s : StyleState) : StyleState :=
  let totalStyles := s.talCount + s.petrosianCount + s.capablancaCount
  if totalStyles = 0 then s
  else recalibrate_enforce useStyle totalStyles
         (recalibrate_hysteresis bestPreviousScore score s)

end Eval

namespace Eval

/-- evaluate.cpp `calculate_tal_weight` (the pos argument is unused in
the source). -/
def calculate_tal_weight (ind : PositionalIndicators) : Int :=
  3 * ind.centerDominance + 2 * ind.kingSafety + ind.openFileControl

/-- evaluate.cpp `calculate_capablanca_weight`. -/
def calculate_capablanca_weight (ind : PositionalIndicators) : Int :=
  2 * ind.materialImbalance + ind.centerControl + ind.openFileControl

/-- evaluate.cpp `calculate_petrosian_weight`. -/
def calculate_petrosian_weight (ind : PositionalIndicators) : Int :=
  2 * ind.flankControl + ind.defensivePosition + ind.pieceActivity

/-- The quantities dynamic_shashin_style and Eval::evaluate read from
their environment on one call: the position-derived indicators and phase
inputs, the search-thread inputs (node count, previous best score) and
the UCI option values ("Use Shashin Style", "Shashin Dynamic Style",
"NNUE ManualWeights" and the two manual strategy weights). -/
structure StyleInput where
  ind : PositionalIndicators
  score : Int
  totalMaterial : Int
  nodesSearched : Int
  bestPreviousScore : Int
  heavyPieces : Int
  lightPieces : Int
  advancedPawns : Int
  materialFactor : Int
  useStyle : Bool
  dynamicStyle : Bool
  manualWeights : Bool
  manualMaterial : Int
  manualPositional : Int
  deriving DecidableEq

/-- evaluate.cpp `Eval::determine_dynamic_phase` (the stateless variant):
phase from heavy/light piece counts, advanced pawns and the material
factor.  The source states the middlegame condition twice; both arms
yield 1. -/
def determine_dynamic_phase
    (heavyPieces lightPieces advancedPawns remainingMaterial : Int) : Int :=
  if remainingMaterial > 3000 ∧ heavyPieces ≥ 4 ∧ lightPieces ≥ 3 then 0
  else if remainingMaterial ≥ 2000 ∧ remainingMaterial ≤ 3000
      ∧ heavyPieces ≤ 3 ∧ lightPieces ≥ 1 then 1
  else if remainingMaterial ≥ 2000 ∧ remainingMaterial ≤ 3000
      ∧ heavyPieces ≤ 3 ∧ lightPieces ≥ 1 then 1
  else if remainingMaterial < 2000 ∧ heavyPieces ≤ 2 ∧ lightPieces ≤ 2
      ∧ advancedPawns ≥ 1 then 2
  else 1

/-- evaluate_nnue.cpp `NNUE::update_weights(phase, pos, tal, petrosian,
capablanca)`: skipped entirely when style use is disabled; memoized on
(phase, incoming weights) via function-local statics; the float phase
blend is modelled as exact rational arithmetic with static_cast<int> as
truncation toward zero.  Returns the new state and the three
by-reference weights. -/
def nnue_update_weights (useStyle manualWeights : Bool)
    (manualMaterial manualPositional phase : Int) (ind : PositionalIndicators)
    (talWeight petrosianWeight capablancaWeight : Int) (s : StyleState) :
    StyleState × Int × Int × Int :=
  if !useStyle then (s, talWeight, petrosianWeight, capablancaWeight)
  else if phase = s.nnueLastPhase ∧ talWeight = s.nnueLastTal
      ∧ petrosianWeight = s.nnueLastPetrosian
      ∧ capablancaWeight = s.nnueLastCapablanca then
    (s, talWeight, petrosianWeight, capablancaWeight)
  else
    let s := { s with
               nnueLastPhase := phase
               nnueLastTal := talWeight
               nnueLastPetrosian := petrosianWeight
               nnueLastCapablanca := capablancaWeight }
    let talWeight := Int.tdiv ((100 - phase) * ind.centerDominance
        + phase * ind.kingSafety) 100 + calculate_tal_weight ind
    let capablancaWeight := Int.tdiv ((100 - phase) * ind.materialImbalance
        + phase * ind.centerControl) 100 + calculate_capablanca_weight ind
    let petrosianWeight := Int.tdiv ((100 - phase) * ind.flankControl
        + phase * ind.pieceActivity) 100 + calculate_petrosian_weight ind
    if manualWeights then
      ({ s with strategy := ⟨manualMaterial, manualPositional⟩ },
       talWeight, petrosianWeight, capablancaWeight)
    else if phase = 0 then
      ({ s with strategy := ⟨cppDiv (talWeight * 2 + petrosianWeight) 3,
          cppDiv (capablancaWeight * 2 + petrosianWeight) 3⟩ },
       talWeight, petrosianWeight, capablancaWeight)
    else if phase = 1 then
      ({ s with strategy :=
          ⟨cppDiv (talWeight + petrosianWeight + capablancaWeight) 3,
           cppDiv (talWeight + petrosianWeight + capablancaWeight) 3⟩ },
       talWeight, petrosianWeight, capablancaWeight)
    else if phase = 2 then
      ({ s with strategy := ⟨cppDiv (petrosianWeight * 2 + capablancaWeight) 3,
          cppDiv (capablancaWeight * 2 + talWeight) 3⟩ },
       talWeight, petrosianWeight, capablancaWeight)
    else (s, talWeight, petrosianWeight, capablancaWeight)

end Eval

namespace Eval

/-- dynamic_shashin_style, CurrentStyle stage (evaluate.cpp lines
392-407): the three clamped base values computed from the indicators and
the over-70 rebalancing branch. -/
def dynamic_current_style (ind : PositionalIndicators) (cs : ShashinStyle) :
    ShashinStyle :=
  let attackBase := 20 + ind.centerControl - cppDiv ind.kingSafety 4
  let defenseBase := 10 - ind.centerControl + cppDiv ind.kingSafety 3
  let balanceBase := 25 + cppDiv ind.centerControl 3
    - cppDiv ind.materialImbalance 6
  let cs := { cs with
              attack := clampI attackBase 15 28
              defense := clampI defenseBase 5 15
              balance := clampI balanceBase 20 30 }
  if cs.attack + cs.defense + cs.balance > 70 then
    let a := clampI cs.attack 15 25
    let d := clampI cs.defense 5 20
    { cs with attack := a, defense := d, balance := 70 - a - d }
  else cs

/-- dynamic_shashin_style, hysteresis stage (lines 423-431): the
deltaScore-driven adjustments followed by the clamps into the designed
ranges. -/
def dynamic_hysteresis_update (deltaScore : Int) (s : StyleState) :
    StyleState :=
  { s with
    hysteresisTal :=
      clampI (s.hysteresisTal + (if deltaScore > 50 then 10 else -5)) 150 500
    hysteresisPetrosian :=
      clampI (s.hysteresisPetrosian + (if deltaScore < 20 then 10 else -5))
        100 400
    hysteresisCapablanca :=
      clampI (s.hysteresisCapablanca + (if |deltaScore| < 30 then 10 else -5))
        30 200 }

/-- dynamic_shashin_style, decision stage (lines 433-448): the
thresholds hysteresis·1.2f + styleValue (the float factor 1.2 is the
exact rational 6/5, so each comparison against a threshold is written
with the denominator 5 cleared: score > h·6/5 + v becomes
5·score > 6·h + 5·v) and the prioritized style choice, incrementing the
matched style's usage counter; no match keeps the last applied style. -/
def dynamic_style_decision (score totalMaterial : Int) (s : StyleState) :
    Style × StyleState :=
  if totalMaterial > 2000
      ∧ 5 * score > 6 * s.hysteresisTal + 5 * s.currentStyle.attack then
    (Style.Tal, { s with talCount := s.talCount + 1 })
  else if 5 * score
      < -(6 * s.hysteresisPetrosian + 5 * s.currentStyle.defense) then
    (Style.Petrosian, { s with petrosianCount := s.petrosianCount + 1 })
  else if 5 * |score|
      < 6 * s.hysteresisCapablanca + 5 * s.currentStyle.balance then
    (Style.Capablanca, { s with capablancaCount := s.capablancaCount + 1 })
  else (s.lastStyle, s)

/-- dynamic_shashin_style, closing stage (lines 450-466): apply a decided
style change (recording lastStyle and lastChangeNodes), then penalty
progression, recalibration, and the final move-counter check. -/
def dynamic_apply_decision (useStyle : Bool)
    (bestPreviousScore score nodesSearched : Int) (newStyle : Style)
    (s : StyleState) : StyleState :=
  let s := if newStyle ≠ s.lastStyle then
      set_shashin_style newStyle
        { s with lastStyle := newStyle, lastChangeNodes := nodesSearched }
    else s
  let s := apply_penalty_progression s
  let s := recalibrate_parameters useStyle bestPreviousScore score s
  let s := { s with moveCounter := s.moveCounter + 1 }
  if s.moveCounter > 50 ∧ newStyle = Style.Capablanca then
    { s with moveCounter := 0 }
  else s

/-- The body of dynamic_shashin_style after its rate guards (lines
379-466): phase determination, the NNUE weight update with the default
weights (20, 20, 20), CurrentStyle recomputation, then the
minimum-interval (50 nodes since the last style change) and
score-variation (deltaScore below 10) guards, and finally the hysteresis
update, the style decision and its application. -/
def dynamic_core (inp : StyleInput) (s : StyleState) : StyleState :=
  let phase := determine_dynamic_phase inp.heavyPieces inp.lightPieces
    inp.advancedPawns inp.materialFactor
  let s := (nnue_update_weights inp.useStyle inp.manualWeights
    inp.manualMaterial inp.manualPositional phase inp.ind 20 20 20 s).1
  let s := { s with currentStyle := dynamic_current_style inp.ind s.currentStyle }
  if inp.nodesSearched - s.lastChangeNodes < 50 then s
  else
    let deltaScore := |inp.score - inp.bestPreviousScore|
    if deltaScore < 10 then s
    else
      let s := dynamic_hysteresis_update deltaScore s
      let d := dynamic_style_decision inp.score inp.totalMaterial s
      dynamic_apply_decision inp.useStyle inp.bestPreviousScore inp.score
        inp.nodesSearched d.1 d.2

/-- evaluate.cpp `dynamic_shashin_style(pos, score, totalMaterial)`: the
style-enabled guard, the score-tolerance guard (which records lastScore
once passed), the 1500-node rate guard (which records lastNodeTrigger
once passed) and the "Shashin Dynamic Style" option guard, then the
body.  The score reference parameter is only read by the source, never
written. -/
def dynamic_shashin_style (inp : StyleInput) (s : StyleState) : StyleState :=
  if !inp.useStyle then s
  else if |inp.score - s.lastScore| < toleranceBuffer then s
  else
    let s := { s with lastScore := inp.score }
    if inp.nodesSearched - s.lastNodeTrigger < 1500 then s
    else
      let s := { s with lastNodeTrigger := inp.nodesSearched }
      if !inp.dynamicStyle then s
      else dynamic_core inp s

end Eval

namespace Eval

/-- evaluate.cpp `determine_phase(pos, totalMaterial)`: the mobility and
pawn-structure scores are abstract position inputs (their computation is
position code outside src/). -/
def determine_phase (totalMaterial mobilityScore pawnStructureScore : Int) :
    Int :=
  if totalMaterial > 12000 ∧ mobilityScore > 30 then 0
  else if totalMaterial > 3000 ∨ mobilityScore > 15 ∨ pawnStructureScore < 50
    then 1
  else 2

/-- The quantities Eval::evaluate reads: the Big-network outputs for the
position, the per-piece-type counts, the abstract mobility and
pawn-structure scores, the three style-bonus indicator values
(compute_aggressivity, compute_position, compute_defense applied to the
position) and the environment of the embedded dynamic-style call. -/
structure EvalInput where
  style : StyleInput
  psqtBig : Int
  positionalBig : Int
  pawnW : Int
  pawnB : Int
  knightW : Int
  knightB : Int
  bishopW : Int
  bishopB : Int
  rookW : Int
  rookB : Int
  queenW : Int
  queenB : Int
  mobilityScore : Int
  pawnStructureScore : Int
  aggressivity : Int
  centerOwnPieces : Int
  kingDefenders : Int
  deriving DecidableEq

/-- The total-material loop of Eval::evaluate (evaluate.cpp lines
891-901). -/
def total_material (inp : EvalInput) : Int :=
  100 * (inp.pawnW + inp.pawnB) + 320 * (inp.knightW + inp.knightB)
    + 330 * (inp.bishopW + inp.bishopB) + 500 * (inp.rookW + inp.rookB)
    + 900 * (inp.queenW + inp.queenB)

/-- evaluate.cpp `Eval::evaluate(pos)` (lines 884-925): the Big-network
non-adjusted NNUE score, the total material, the phase, the NNUE weight
update starting from zero weights, the dynamic style call when "Shashin
Dynamic Style" is set, and finally the three style bonuses
(talWeight·aggressivity, capablancaWeight·centerOwnPieces,
petrosianWeight·kingDefenders) added to the score.  No clamp is applied
on this path; the clamped blend inside Eval::update_weights
(lines 944-1062) is computed into a local variable that the void
function discards, and that function has no caller in the source. -/
def evaluate (inp : EvalInput) (s : StyleState) : Int × StyleState :=
  let score := NNUE.evaluateTier s.strategy inp.psqtBig inp.positionalBig
    false false
  let totalMaterial := total_material inp
  let phase := determine_phase totalMaterial inp.mobilityScore
    inp.pawnStructureScore
  let r := nnue_update_weights inp.style.useStyle inp.style.manualWeights
    inp.style.manualMaterial inp.style.manualPositional phase inp.style.ind
    0 0 0 s
  let s := r.1
  let talWeight := r.2.1
  let petrosianWeight := r.2.2.1
  let capablancaWeight := r.2.2.2
  let s := if inp.style.dynamicStyle then
      dynamic_shashin_style
        { inp.style with score := score, totalMaterial := totalMaterial } s
    else s
  (score + talWeight * inp.aggressivity
     + capablancaWeight * inp.centerOwnPieces
     + petrosianWeight * inp.kingDefenders, s)

end Eval

namespace NNUE

/-- evaluate_nnue.cpp: material threshold for the endgame phase. -/
def thresholdForEndgame : Int := 1300

/-- evaluate_nnue.cpp: material threshold for the middlegame phase. -/
def thresholdForMiddlegame : Int := 2000

/-- The function-local static state of NNUE::determine_dynamic_phase. -/
structure PhaseState where
  stablePhase : Int
  stabilityCounter : Int
  deriving DecidableEq

/-- The initial static state (opening phase, zero counter). -/
def initialPhaseState : PhaseState := ⟨0, 0⟩

/-- The raw material-derived phase computed inside
NNUE::determine_dynamic_phase (default 0, endgame 2 at or below 1300,
middlegame 1 at or below 2000). -/
def rawPhase (remainingMaterial : Int) : Int :=
  if remainingMaterial ≤ thresholdForEndgame then 2
  else if remainingMaterial ≤ thresholdForMiddlegame then 1
  else 0

/-- evaluate_nnue.cpp `NNUE::determine_dynamic_phase`: the stability
counter advances while the raw phase disagrees with the stable phase;
once it reaches the threshold 3 the stable phase becomes the raw phase
and the counter resets; agreement resets the counter.  Returns the
stable phase and the new static state. -/
def determine_dynamic_phase (remainingMaterial : Int) (s : PhaseState) :
    Int × PhaseState :=
  let currentPhase := rawPhase remainingMaterial
  let s :=
    if currentPhase ≠ s.stablePhase then
      if s.stabilityCounter + 1 ≥ 3 then
        { stablePhase := currentPhase, stabilityCounter := 0 }
      else { s with stabilityCounter := s.stabilityCounter + 1 }
    else { s with stabilityCounter := 0 }
  (s.stablePhase, s)

/-- Iterate the phase machine over a list of material inputs. -/
def runPhases (s : PhaseState) (ms : List Int) : PhaseState :=
  ms.foldl (fun s m => (determine_dynamic_phase m s).2) s

end NNUE

namespace UCI

/-- ucioption.cpp, "Enable Custom Blend" on-change handler, trimming
stage (lines 209-236): when the three blend weights total more than 100
the excess is divided by the number of active (non-zero) weights
(std::ceil of the float quotient, modelled as the exact ceiling
division cppCeilDiv) and that share is subtracted from each active
weight, floored at zero; inactive weights are untouched. -/
def enable_custom_blend_adjust (talWeight capablancaWeight petrosianWeight :
    Int) : Int × Int × Int :=
  let total := talWeight + capablancaWeight + petrosianWeight
  if total > 100 then
    let excess := total - 100
    let activeWeights : Int := (if talWeight > 0 then 1 else 0)
      + (if capablancaWeight > 0 then 1 else 0)
      + (if petrosianWeight > 0 then 1 else 0)
    if activeWeights > 0 then
      let share : Int := cppCeilDiv excess activeWeights
      (if talWeight > 0 then max 0 (talWeight - share) else talWeight,
       if capablancaWeight > 0 then max 0 (capablancaWeight - share)
       else capablancaWeight,
       if petrosianWeight > 0 then max 0 (petrosianWeight - share)
       else petrosianWeight)
    else (talWeight, capablancaWeight, petrosianWeight)
  else (talWeight, capablancaWeight, petrosianWeight)

/-- ucioption.cpp, "Enable Custom Blend" handler, enabled branch (lines
244-246): the adjusted weights are passed to set_shashin_custom_blend in
the argument order tal, petrosian, capablanca. -/
def enable_custom_blend_apply (talWeight capablancaWeight petrosianWeight :
    Int) (s : Eval.StyleState) : Eval.StyleState :=
  let r := enable_custom_blend_adjust talWeight capablancaWeight
    petrosianWeight
  Eval.set_shashin_custom_blend r.1 r.2.2 r.2.1 s

end UCI

namespace Eval

/-- One externally triggered style operation: the enum and string style
setters, the custom blend, or one dynamic_shashin_style call with its
environment. -/
inductive StyleOp where
  | setStyle (st : Style)
  | setStyleStr (useStyle : Bool) (name : String)
  | customBlend (tal pet cap : Int)
  | dyn (inp : StyleInput)
  deriving DecidableEq

/-- Apply one style operation to the style state. -/
def applyStyleOp (s : StyleState) (op : StyleOp) : StyleState :=
  match op with
  | StyleOp.setStyle st => set_shashin_style st s
  | StyleOp.setStyleStr u n => set_shashin_style_str u n s
  | StyleOp.customBlend t p c => set_shashin_custom_blend t p c s
  | StyleOp.dyn inp => dynamic_shashin_style inp s

/-- Side condition satisfied by every board-derived input:
compute_center_control counts occupied squares among the four central
squares, so centerControl lies in [0, 4]. -/
def StyleOpOK : StyleOp → Prop
  | StyleOp.dyn inp => 0 ≤ inp.ind.centerControl ∧ inp.ind.centerControl ≤ 4
  | _ => True

instance (op : StyleOp) : Decidable (StyleOpOK op) := by
  cases op <;> simp only [StyleOpOK] <;> infer_instance

/-- Iterate style operations from a starting state. -/
def runStyleOps (s : StyleState) (ops : List StyleOp) : StyleState :=
  ops.foldl applyStyleOp s

/-- Iterate dynamic_shashin_style over a list of per-call inputs. -/
def runDyn (s : StyleState) (inps : List StyleInput) : StyleState :=
  inps.foldl (fun s i => dynamic_shashin_style i s) s

/-- The documented range [0, 30] for the three CurrentStyle fields. -/
def styleInRange (cs : ShashinStyle) : Prop :=
  0 ≤ cs.attack ∧ cs.attack ≤ 30 ∧ 0 ≤ cs.defense ∧ cs.defense ≤ 30
    ∧ 0 ≤ cs.balance ∧ cs.balance ≤ 30

instance (cs : ShashinStyle) : Decidable (styleInRange cs) := by
  unfold styleInRange; infer_instance

/-- The designed hysteresis ranges: [150,500] for Tal, [100,400] for
Petrosian, [30,200] for Capablanca. -/
def hysteresisInRange (s : StyleState) : Prop :=
  150 ≤ s.hysteresisTal ∧ s.hysteresisTal ≤ 500
    ∧ 100 ≤ s.hysteresisPetrosian ∧ s.hysteresisPetrosian ≤ 400
    ∧ 30 ≤ s.hysteresisCapablanca ∧ s.hysteresisCapablanca ≤ 200

instance (s : StyleState) : Decidable (hysteresisInRange s) := by
  unfold hysteresisInRange; infer_instance

/-- A concrete dynamic-style input: all indicators zero, total material
1000, previous best score 0, all style options on, manual weights off;
score and node count vary per call. -/
def dynInput (score nodes : Int) : StyleInput :=
  { ind := ⟨0, 0, 0, 0, 0, 0, 0, 0⟩
    score := score
    totalMaterial := 1000
    nodesSearched := nodes
    bestPreviousScore := 0
    heavyPieces := 0
    lightPieces := 0
    advancedPawns := 0
    materialFactor := 0
    useStyle := true
    dynamicStyle := true
    manualWeights := false
    manualMaterial := 0
    manualPositional := 0 }

/-- Eighteen rate-guard-passing calls: scores alternating 400 / 500 and
node counts 1500·k. -/
def dynRun18 : List StyleInput :=
  (List.range 18).map
    (fun k => dynInput (if k % 2 = 0 then 400 else 500) (1500 * ((k : Int) + 1)))

end Eval

namespace NNUE

/-- A small concrete architecture used for concrete evaluations. -/
def arch0 : Arch :=
  { version := 7, hashValue := 9, ftHash := 11, netHash := 13
    ftLen := 2, netLen := 1, layerStacks := 2 }

/-- A tier state holding previously loaded (nonzero) parameters under the
name "old.nnue". -/
def tier0 : TierState :=
  { params := { ft := [1, 2], nets := [[3], [4]] }
    fileName := "old.nnue"
    netDescription := [65]
    selectedName := "old.nnue" }

/-- The byte stream written by save for tier0 under arch0. -/
def stream0 : List Nat := write_parameters arch0 tier0

end NNUE

namespace Eval

/-- A style-input with every option off (the dynamic machinery disabled
and "Use Shashin Style" off). -/
def styleOff : StyleInput :=
  { dynInput 0 0 with useStyle := false, dynamicStyle := false }

/-- A concrete evaluation input: style machinery off, Big-network psqt
output 640000 with zero positional output, an empty board otherwise. -/
def evalInput0 : EvalInput :=
  { style := styleOff
    psqtBig := 640000
    positionalBig := 0
    pawnW := 0
    pawnB := 0
    knightW := 0
    knightB := 0
    bishopW := 0
    bishopB := 0
    rookW := 0
    rookB := 0
    queenW := 0
    queenB := 0
    mobilityScore := 0
    pawnStructureScore := 0
    aggressivity := 0
    centerOwnPieces := 0
    kingDefenders := 0 }

/-- The style-state components named by the rate-limiting property: the
applied style, the CurrentStyle values, the hysteresis values and the
usage counters agree between two states. -/
def styleCoreUnchanged (s2 s : StyleState) : Prop :=
  s2.currentStyle = s.currentStyle ∧ s2.lastStyle = s.lastStyle
    ∧ s2.hysteresisTal = s.hysteresisTal
    ∧ s2.hysteresisPetrosian = s.hysteresisPetrosian
    ∧ s2.hysteresisCapablanca = s.hysteresisCapablanca
    ∧ s2.talCount = s.talCount ∧ s2.petrosianCount = s.petrosianCount
    ∧ s2.capablancaCount = s.capablancaCount

instance (s2 s : StyleState) : Decidable (styleCoreUnchanged s2 s) := by
  unfold styleCoreUnchanged; infer_instance

end Eval

namespace NNUE

/-- The parameter storage of a tier fits the architecture: block lengths
and description length as written by save. -/
def TierWF (a : Arch) (st : TierState) : Prop :=
  st.params.ft.length = a.ftLen ∧ st.params.nets.length = a.layerStacks
    ∧ (∀ b ∈ st.params.nets, b.length = a.netLen)
    ∧ st.netDescription.length < 2 ^ 32

instance (a : Arch) (st : TierState) : Decidable (TierWF a st) := by
  unfold TierWF; infer_instance

/-- Writing the blocks of `blobs` into `nets` at consecutive indices
from `i`: the storage shape produced by the loadNets loop. -/
def setNetsFrom (nets : List (List Nat)) (i : Nat) (blobs : List (List Nat)) :
    List (List Nat) :=
  match blobs with
  | [] => nets
  | b :: bs => setNetsFrom (nets.set i b) (i + 1) bs

end NNUE

theorem clampI_lb (v lo hi : Int) (h : lo ≤ hi) : lo ≤ clampI v lo hi := by
  unfold clampI; split_ifs <;> omega

theorem clampI_ub (v lo hi : Int) (h : lo ≤ hi) : clampI v lo hi ≤ hi := by
  unfold clampI; split_ifs <;> omega

theorem clampI_le (v lo hi c : Int) (h1 : v ≤ c) (h2 : lo ≤ c) :
    clampI v lo hi ≤ c := by
  unfold clampI; split_ifs <;> omega

theorem cppCeilDiv_spec (e act : Int) (h : 0 < act) :
    e ≤ act * cppCeilDiv e act := by
  unfold cppCeilDiv
  have h2 := Int.ediv_mul_le (-e) (show act ≠ 0 by omega)
  nlinarith [h2]

/-- C3: for all psqt and positional values, the pure NNUE blend
NNUE::evaluate(psqt, positional, delta, adjusted) computes the spec
formula ((1024 − δ + StrategyMaterialWeight)·psqt + (1024 + δ +
StrategyPositionalWeight)·positional) / (1024·OutputScale) when adjusted
is set — and the position-level evaluator NNUE::evaluate<Net_Size>
always calls it with δ = 24 — while the non-adjusted result is
(psqt + positional) / OutputScale, independent of the strategy weights
and of δ. -/
theorem c3_blend_formula :
    (∀ (w : NNUE.StrategyWeights) (psqt positional delta : Int),
        NNUE.evaluateBlend w psqt positional delta true =
          NNUE.specBlend w.strategyMaterialWeight w.strategyPositionalWeight
            psqt positional delta true)
    ∧ (∀ (w : NNUE.StrategyWeights) (psqt positionalRaw : Int)
          (adjusted psqtOnly : Bool),
        NNUE.evaluateTier w psqt positionalRaw adjusted psqtOnly =
          NNUE.specBlend w.strategyMaterialWeight w.strategyPositionalWeight
            psqt (if psqtOnly then 0 else positionalRaw) 24 adjusted)
    ∧ (∀ (w : NNUE.StrategyWeights) (psqt positional delta : Int),
        NNUE.evaluateBlend w psqt positional delta false =
          cppDiv (psqt + positional) OutputScale)
    ∧ (∀ (w w2 : NNUE.StrategyWeights) (psqt positional delta delta2 : Int),
        NNUE.evaluateBlend w psqt positional delta false =
          NNUE.evaluateBlend w2 psqt positional delta2 false) := by
  refine ⟨fun w psqt positional delta => rfl,
          fun w psqt positionalRaw adjusted psqtOnly => rfl,
          fun w psqt positional delta => rfl,
          fun w w2 psqt positional delta delta2 => rfl⟩

/-- C1: contrary to the claim, the score Eval::evaluate returns to the
search engine is not clamped into
[VALUE_TB_LOSS_IN_MAX_PLY + 1, VALUE_TB_WIN_IN_MAX_PLY - 1]: at a
position whose Big-network psqt output is 640000 (all style machinery
off, so the style bonuses are zero) the returned score is 40000, beyond
the tablebase-win sentinel.  The only clamp in the source
(evaluate.cpp:1055) sits inside the void function Eval::update_weights,
is applied to a local variable discarded at its final return, and that
function has no caller. -/
theorem c1_evaluate_returns_unclamped :
    (Eval.evaluate Eval.evalInput0 Eval.initialStyleState).1 = 40000
    ∧ ¬ ((Eval.evaluate Eval.evalInput0 Eval.initialStyleState).1
          ≤ VALUE_TB_WIN_IN_MAX_PLY - 1)
    ∧ VALUE_TB_LOSS_IN_MAX_PLY + 1
        ≤ (Eval.evaluate Eval.evalInput0 Eval.initialStyleState).1 := by
  refine ⟨by decide, by decide, by decide⟩

/-- C10: when "Use Shashin Style" is disabled, Eval::evaluate returns
exactly the Big-network non-adjusted NNUE score
NNUE::evaluate<Big>(pos, false, nullptr, false) — equal to
(psqt + positional) / OutputScale, independent of the strategy weights —
the three style bonuses are zero, and the dynamic style machinery
changes no state. -/
theorem c10_style_disabled_identity (inp : Eval.EvalInput)
    (s : Eval.StyleState) (h : inp.style.useStyle = false) :
    (Eval.evaluate inp s).1 =
      NNUE.evaluateTier s.strategy inp.psqtBig inp.positionalBig false false
    ∧ (Eval.evaluate inp s).1 =
      cppDiv (inp.psqtBig + inp.positionalBig) OutputScale
    ∧ (Eval.evaluate inp s).2 = s := by
  have h2 : (!inp.style.useStyle) = true := by simp [h]
  refine ⟨?_, ?_, ?_⟩ <;>
    simp only [Eval.evaluate, Eval.nnue_update_weights,
      Eval.dynamic_shashin_style, NNUE.evaluateTier, NNUE.evaluateBlend, h,
      h2, Bool.not_false, if_true, ite_self] <;>
    simp

theorem c10_style_disabled_identity_witness :
    Eval.evalInput0.style.useStyle = false
    ∧ ((Eval.evaluate Eval.evalInput0 Eval.initialStyleState).1 =
        NNUE.evaluateTier Eval.initialStyleState.strategy
          Eval.evalInput0.psqtBig Eval.evalInput0.positionalBig false false
      ∧ (Eval.evaluate Eval.evalInput0 Eval.initialStyleState).1 =
        cppDiv (Eval.evalInput0.psqtBig + Eval.evalInput0.positionalBig)
          OutputScale
      ∧ (Eval.evaluate Eval.evalInput0 Eval.initialStyleState).2 =
        Eval.initialStyleState) :=
  ⟨by decide,
   c10_style_disabled_identity Eval.evalInput0 Eval.initialStyleState
     (by decide)⟩

/-- C8 counterexample: the custom-blend request (tal=100, capablanca=100,
petrosian=1) is trimmed to (66, 66, 0), whose total 132 still exceeds
100 — the trim does not guarantee the total passed on is at most 100,
because a weight smaller than the common share is floored at zero. -/
theorem c8_custom_blend_cex :
    UCI.enable_custom_blend_adjust 100 100 1 = (66, 66, 0)
    ∧ ¬ ((UCI.enable_custom_blend_adjust 100 100 1).1
        + (UCI.enable_custom_blend_adjust 100 100 1).2.1
        + (UCI.enable_custom_blend_adjust 100 100 1).2.2 ≤ 100) :=
  ⟨by decide, by decide⟩

/-- C8 amended: the excess above 100 is trimmed by subtracting the
common share ⌈excess/activeWeights⌉ from each active (non-zero) weight,
floored at zero; inactive weights are untouched; the resulting total is
at most 100 whenever every active weight is at least the share — in
particular (tal=80, capablanca=50, petrosian=0) becomes (65, 35, 0) with
total exactly 100 and petrosian untouched — but not in general. -/
theorem c8_custom_blend_amended (tal cap pet share : Int)
    (hsh : share = cppCeilDiv (tal + cap + pet - 100)
      ((if tal > 0 then 1 else 0) + (if cap > 0 then 1 else 0)
        + (if pet > 0 then 1 else 0))) :
    (pet = 0 → (UCI.enable_custom_blend_adjust tal cap pet).2.2 = 0)
    ∧ (tal = 0 → (UCI.enable_custom_blend_adjust tal cap pet).1 = 0)
    ∧ (cap = 0 → (UCI.enable_custom_blend_adjust tal cap pet).2.1 = 0)
    ∧ (tal + cap + pet > 100 → (tal > 0 → share ≤ tal)
        → (cap > 0 → share ≤ cap) → (pet > 0 → share ≤ pet)
        → (UCI.enable_custom_blend_adjust tal cap pet).1
          + (UCI.enable_custom_blend_adjust tal cap pet).2.1
          + (UCI.enable_custom_blend_adjust tal cap pet).2.2 ≤ 100)
    ∧ UCI.enable_custom_blend_adjust 80 50 0 = (65, 35, 0) := by
  subst hsh
  refine ⟨?_, ?_, ?_, ?_, by decide⟩
  · intro hp
    simp only [UCI.enable_custom_blend_adjust]
    split_ifs <;> simp_all <;> omega
  · intro ht
    simp only [UCI.enable_custom_blend_adjust]
    split_ifs <;> simp_all <;> omega
  · intro hc
    simp only [UCI.enable_custom_blend_adjust]
    split_ifs <;> simp_all <;> omega
  · intro htot htal hcap hpet
    by_cases ht : tal > 0 <;> by_cases hc : cap > 0 <;> by_cases hp : pet > 0 <;>
      simp only [UCI.enable_custom_blend_adjust, ht, hc, hp, htot, if_true,
        if_false, ite_true, ite_false] <;>
      simp_all <;>
      first
        | omega
        | (have hkey := cppCeilDiv_spec (tal + cap + pet - 100) 3
            (by norm_num); omega)
        | (have hkey := cppCeilDiv_spec (tal + cap + pet - 100) 2
            (by norm_num); omega)
        | (have hkey := cppCeilDiv_spec (tal + cap + pet - 100) 1
            (by norm_num); omega)

theorem c8_custom_blend_amended_witness :
    ((80 : Int) + 50 + 0 > 100)
    ∧ (UCI.enable_custom_blend_adjust 80 50 0).1
        + (UCI.enable_custom_blend_adjust 80 50 0).2.1
        + (UCI.enable_custom_blend_adjust 80 50 0).2.2 ≤ 100 :=
  ⟨by decide,
   (c8_custom_blend_amended 80 50 0 15 (by decide)).2.2.2.1 (by decide)
     (by decide) (by decide) (by decide)⟩

theorem determine_dynamic_phase_step (m : Int) (s : NNUE.PhaseState) :
    NNUE.determine_dynamic_phase m s =
      if NNUE.rawPhase m ≠ s.stablePhase then
        (if s.stabilityCounter + 1 ≥ 3 then
          (NNUE.rawPhase m, ⟨NNUE.rawPhase m, 0⟩)
         else (s.stablePhase, ⟨s.stablePhase, s.stabilityCounter + 1⟩))
      else (s.stablePhase, ⟨s.stablePhase, 0⟩) := by
  simp only [NNUE.determine_dynamic_phase]
  split_ifs <;> rfl

theorem ddp_agree (m : Int) (s : NNUE.PhaseState)
    (e : NNUE.rawPhase m = s.stablePhase) :
    NNUE.determine_dynamic_phase m s = (s.stablePhase, ⟨s.stablePhase, 0⟩) := by
  rw [determine_dynamic_phase_step, if_neg (not_ne_iff.mpr e)]

theorem ddp_differ_lt (m : Int) (s : NNUE.PhaseState)
    (e : NNUE.rawPhase m ≠ s.stablePhase) (h2 : s.stabilityCounter + 1 < 3) :
    NNUE.determine_dynamic_phase m s =
      (s.stablePhase, ⟨s.stablePhase, s.stabilityCounter + 1⟩) := by
  rw [determine_dynamic_phase_step, if_pos e, if_neg (by omega)]

theorem ddp_differ_ge (m : Int) (s : NNUE.PhaseState)
    (e : NNUE.rawPhase m ≠ s.stablePhase) (h2 : s.stabilityCounter + 1 ≥ 3) :
    NNUE.determine_dynamic_phase m s =
      (NNUE.rawPhase m, ⟨NNUE.rawPhase m, 0⟩) := by
  rw [determine_dynamic_phase_step, if_pos e, if_pos h2]

/-- C7: starting from a phase-machine state whose stability counter is
zero (the initial state, or any state right after a phase change or an
agreeing call), NNUE::determine_dynamic_phase keeps returning the same
stable phase on the next two calls; the third call changes the returned
phase only if the raw material-derived phase differed from the stable
phase on all three calls, and then the returned phase is that third raw
phase (and conversely, three consecutive differing raw phases do change
it). -/
theorem c7_phase_stability (s : NNUE.PhaseState) (m1 m2 m3 : Int)
    (h : s.stabilityCounter = 0) :
    (NNUE.determine_dynamic_phase m1 s).1 = s.stablePhase
    ∧ (NNUE.determine_dynamic_phase m2
        (NNUE.determine_dynamic_phase m1 s).2).1 = s.stablePhase
    ∧ ((NNUE.determine_dynamic_phase m3 (NNUE.determine_dynamic_phase m2
          (NNUE.determine_dynamic_phase m1 s).2).2).1 ≠ s.stablePhase →
        (NNUE.rawPhase m1 ≠ s.stablePhase ∧ NNUE.rawPhase m2 ≠ s.stablePhase
          ∧ NNUE.rawPhase m3 ≠ s.stablePhase))
    ∧ ((NNUE.rawPhase m1 ≠ s.stablePhase ∧ NNUE.rawPhase m2 ≠ s.stablePhase
          ∧ NNUE.rawPhase m3 ≠ s.stablePhase) →
        (NNUE.determine_dynamic_phase m3 (NNUE.determine_dynamic_phase m2
          (NNUE.determine_dynamic_phase m1 s).2).2).1 = NNUE.rawPhase m3) := by
  rcases eq_or_ne (NNUE.rawPhase m1) s.stablePhase with e1 | e1
  · have k1 := ddp_agree m1 s e1
    rcases eq_or_ne (NNUE.rawPhase m2) s.stablePhase with e2 | e2
    · have k2 := ddp_agree m2 (⟨s.stablePhase, 0⟩ : NNUE.PhaseState) e2
      rcases eq_or_ne (NNUE.rawPhase m3) s.stablePhase with e3 | e3
      · have k3 := ddp_agree m3 (⟨s.stablePhase, 0⟩ : NNUE.PhaseState) e3
        simp [k1, k2, k3, e1]
      · have k3 := ddp_differ_lt m3 (⟨s.stablePhase, 0⟩ : NNUE.PhaseState) e3
          (by norm_num)
        simp [k1, k2, k3, e1]
    · have k2 := ddp_differ_lt m2 (⟨s.stablePhase, 0⟩ : NNUE.PhaseState) e2
        (by norm_num)
      rcases eq_or_ne (NNUE.rawPhase m3) s.stablePhase with e3 | e3
      · have k3 := ddp_agree m3 (⟨s.stablePhase, 1⟩ : NNUE.PhaseState) e3
        simp [k1, k2, k3, e1]
      · have k3 := ddp_differ_lt m3 (⟨s.stablePhase, 1⟩ : NNUE.PhaseState)
          e3 (by norm_num)
        simp [k1, k2, k3, e1]
  · have k1 := ddp_differ_lt m1 s e1 (by omega)
    rw [h] at k1
    rcases eq_or_ne (NNUE.rawPhase m2) s.stablePhase with e2 | e2
    · have k2 := ddp_agree m2 (⟨s.stablePhase, 1⟩ : NNUE.PhaseState) e2
      rcases eq_or_ne (NNUE.rawPhase m3) s.stablePhase with e3 | e3
      · have k3 := ddp_agree m3 (⟨s.stablePhase, 0⟩ : NNUE.PhaseState) e3
        simp [k1, k2, k3, e2]
      · have k3 := ddp_differ_lt m3 (⟨s.stablePhase, 0⟩ : NNUE.PhaseState) e3
          (by norm_num)
        simp [k1, k2, k3, e2]
    · have k2 := ddp_differ_lt m2 (⟨s.stablePhase, 1⟩ : NNUE.PhaseState)
        e2 (by norm_num)
      rcases eq_or_ne (NNUE.rawPhase m3) s.stablePhase with e3 | e3
      · have k3 := ddp_agree m3 (⟨s.stablePhase, 2⟩ : NNUE.PhaseState)
          e3
        simp [k1, k2, k3, e3]
      · have k3 := ddp_differ_ge m3
          (⟨s.stablePhase, 2⟩ : NNUE.PhaseState) e3 (by norm_num)
        simp [k1, k2, k3, e1, e2, e3]

theorem c7_phase_stability_witness :
    NNUE.initialPhaseState.stabilityCounter = 0
    ∧ ((NNUE.determine_dynamic_phase 1000 NNUE.initialPhaseState).1 =
        NNUE.initialPhaseState.stablePhase
      ∧ (NNUE.determine_dynamic_phase 1500 (NNUE.determine_dynamic_phase 1000
          NNUE.initialPhaseState).2).1 = NNUE.initialPhaseState.stablePhase
      ∧ ((NNUE.determine_dynamic_phase 1000 (NNUE.determine_dynamic_phase 1500
            (NNUE.determine_dynamic_phase 1000
              NNUE.initialPhaseState).2).2).1 ≠
            NNUE.initialPhaseState.stablePhase →
          (NNUE.rawPhase 1000 ≠ NNUE.initialPhaseState.stablePhase
            ∧ NNUE.rawPhase 1500 ≠ NNUE.initialPhaseState.stablePhase
            ∧ NNUE.rawPhase 1000 ≠ NNUE.initialPhaseState.stablePhase))
      ∧ ((NNUE.rawPhase 1000 ≠ NNUE.initialPhaseState.stablePhase
            ∧ NNUE.rawPhase 1500 ≠ NNUE.initialPhaseState.stablePhase
            ∧ NNUE.rawPhase 1000 ≠ NNUE.initialPhaseState.stablePhase) →
          (NNUE.determine_dynamic_phase 1000 (NNUE.determine_dynamic_phase 1500
            (NNUE.determine_dynamic_phase 1000
              NNUE.initialPhaseState).2).2).1 = NNUE.rawPhase 1000)) :=
  ⟨by decide, c7_phase_stability NNUE.initialPhaseState 1000 1500 1000 rfl⟩

/-- C6 counterexample: two dynamic_shashin_style calls only 100 searched
nodes apart (node counts 1400 and 1500) where the second call still
changes the style state (CurrentStyle and the hysteresis values): the
first call was itself rejected by the 1500-node rate guard and therefore
did not update lastNodeTrigger, so the guard compares the second call
against the stale trigger 0. -/
theorem c6_rate_limit_cex :
    (Eval.dynInput 400 1500).nodesSearched
        - (Eval.dynInput 100 1400).nodesSearched < 1500
    ∧ ¬ Eval.styleCoreUnchanged
        (Eval.dynamic_shashin_style (Eval.dynInput 400 1500)
          (Eval.dynamic_shashin_style (Eval.dynInput 100 1400)
            Eval.initialStyleState))
        (Eval.dynamic_shashin_style (Eval.dynInput 100 1400)
          Eval.initialStyleState) :=
  ⟨by decide, by decide⟩

/-- C6 amended: a dynamic_shashin_style call arriving fewer than 1500
searched nodes after the last recorded node trigger (the last call that
passed the rate guard) produces no style-state change: the applied
style, the CurrentStyle values, the hysteresis values and the usage
counters are unchanged (only lastScore may be recorded). -/
theorem c6_rate_limit_amended (inp : Eval.StyleInput) (s : Eval.StyleState)
    (h : inp.nodesSearched - s.lastNodeTrigger < 1500) :
    Eval.styleCoreUnchanged (Eval.dynamic_shashin_style inp s) s := by
  simp only [Eval.dynamic_shashin_style, Eval.styleCoreUnchanged]
  split_ifs <;>
    first
      | exact ⟨rfl, rfl, rfl, rfl, rfl, rfl, rfl, rfl⟩
      | (exfalso; omega)

theorem c6_rate_limit_amended_witness :
    (Eval.dynInput 400 100).nodesSearched
        - Eval.initialStyleState.lastNodeTrigger < 1500
    ∧ Eval.styleCoreUnchanged
        (Eval.dynamic_shashin_style (Eval.dynInput 400 100)
          Eval.initialStyleState)
        Eval.initialStyleState :=
  ⟨by decide, c6_rate_limit_amended (Eval.dynInput 400 100)
    Eval.initialStyleState (by decide)⟩

set_option maxRecDepth 8000 in
/-- C4 counterexample: eighteen dynamic_shashin_style calls from the
initial state (scores alternating 400/500, nodes 1500·k, all indicators
zero, total material 1000) leave hysteresisCapablanca at 25, below its
designed minimum 30: with CurrentStyle.attack clamped to at least 15,
apply_penalty_progression fires every sixth call and subtracts 5 without
clamping, and recalibrate_parameters returns before its clamps because
every style-usage counter is still zero. -/
theorem c4_hysteresis_range_cex :
    (Eval.runDyn Eval.initialStyleState Eval.dynRun18).hysteresisCapablanca
      = 25
    ∧ ¬ Eval.hysteresisInRange
        (Eval.runDyn Eval.initialStyleState Eval.dynRun18) :=
  ⟨by decide, by decide⟩

theorem recalibrate_hysteresis_range (b sc : Int) (s : Eval.StyleState) :
    Eval.hysteresisInRange (Eval.recalibrate_hysteresis b sc s) := by
  simp only [Eval.recalibrate_hysteresis, Eval.hysteresisInRange]
  refine ⟨?_, ?_, ?_, ?_, ?_, ?_⟩ <;>
    first
      | exact clampI_lb _ _ _ (by omega)
      | exact clampI_ub _ _ _ (by omega)

theorem recalibrate_enforce_hysteresis (u : Bool) (t : Int)
    (s : Eval.StyleState) :
    (Eval.recalibrate_enforce u t s).hysteresisTal = s.hysteresisTal
    ∧ (Eval.recalibrate_enforce u t s).hysteresisPetrosian =
        s.hysteresisPetrosian
    ∧ (Eval.recalibrate_enforce u t s).hysteresisCapablanca =
        s.hysteresisCapablanca := by
  simp only [Eval.recalibrate_enforce, Eval.set_shashin_style_str,
    Eval.set_shashin_style]
  split_ifs <;> exact ⟨rfl, rfl, rfl⟩

/-- C4 amended: the three hysteresis values are guaranteed inside their
designed ranges ([150,500], [100,400], [30,200]) after
recalibrate_parameters whenever at least one style use has been counted
(its clamps then execute); they are NOT maintained by every update — the
unclamped adjustments of apply_penalty_progression can leave a value
outside its range when all usage counters are zero, because
recalibrate_parameters then returns before clamping. -/
theorem c4_hysteresis_amended (u : Bool) (b sc : Int) (s : Eval.StyleState)
    (h : ¬ (s.talCount + s.petrosianCount + s.capablancaCount = 0)) :
    Eval.hysteresisInRange (Eval.recalibrate_parameters u b sc s) := by
  simp only [Eval.recalibrate_parameters]
  rw [if_neg h]
  have h1 := recalibrate_hysteresis_range b sc s
  have h2 := recalibrate_enforce_hysteresis u
    (s.talCount + s.petrosianCount + s.capablancaCount)
    (Eval.recalibrate_hysteresis b sc s)
  unfold Eval.hysteresisInRange at h1 ⊢
  omega

theorem c4_hysteresis_amended_witness :
    ¬ (({ Eval.initialStyleState with talCount := 1 } :
          Eval.StyleState).talCount
        + ({ Eval.initialStyleState with talCount := 1 } :
            Eval.StyleState).petrosianCount
        + ({ Eval.initialStyleState with talCount := 1 } :
            Eval.StyleState).capablancaCount = 0)
    ∧ Eval.hysteresisInRange (Eval.recalibrate_parameters true 0 100
        { Eval.initialStyleState with talCount := 1 }) :=
  ⟨by decide, c4_hysteresis_amended true 0 100
    { Eval.initialStyleState with talCount := 1 } (by decide)⟩

theorem styleConstants_range (st : Eval.Style) :
    Eval.styleInRange (Eval.styleConstants st) := by
  cases st <;> decide

theorem set_shashin_style_range (st : Eval.Style) (s : Eval.StyleState) :
    Eval.styleInRange (Eval.set_shashin_style st s).currentStyle :=
  styleConstants_range st

theorem set_shashin_style_str_range (u : Bool) (n : String)
    (s : Eval.StyleState) :
    Eval.styleInRange (Eval.set_shashin_style_str u n s).currentStyle := by
  unfold Eval.set_shashin_style_str
  split_ifs <;>
    first
      | exact (by decide :
          Eval.styleInRange (⟨0, 0, 0, 0, 0, 0⟩ : Eval.ShashinStyle))
      | exact set_shashin_style_range _ _

theorem set_shashin_custom_blend_range (t p c : Int) (s : Eval.StyleState) :
    Eval.styleInRange (Eval.set_shashin_custom_blend t p c s).currentStyle := by
  simp only [Eval.set_shashin_custom_blend]
  split_ifs
  · exact set_shashin_style_range _ _
  · refine ⟨?_, ?_, ?_, ?_, ?_, ?_⟩ <;>
      first
        | exact clampI_lb _ _ _ (by omega)
        | exact clampI_ub _ _ _ (by omega)

theorem dynamic_current_style_range (ind : Eval.PositionalIndicators)
    (cs : Eval.ShashinStyle) (h0 : 0 ≤ ind.centerControl)
    (h4 : ind.centerControl ≤ 4) :
    Eval.styleInRange (Eval.dynamic_current_style ind cs) := by
  have hA1 := clampI_lb (20 + ind.centerControl - cppDiv ind.kingSafety 4)
    15 28 (by omega)
  have hA2 := clampI_ub (20 + ind.centerControl - cppDiv ind.kingSafety 4)
    15 28 (by omega)
  have hD1 := clampI_lb (10 - ind.centerControl + cppDiv ind.kingSafety 3)
    5 15 (by omega)
  have hD2 := clampI_ub (10 - ind.centerControl + cppDiv ind.kingSafety 3)
    5 15 (by omega)
  have hB1 := clampI_lb (25 + cppDiv ind.centerControl 3
    - cppDiv ind.materialImbalance 6) 20 30 (by omega)
  have hB2 := clampI_ub (25 + cppDiv ind.centerControl 3
    - cppDiv ind.materialImbalance 6) 20 30 (by omega)
  rcases le_or_lt (cppDiv ind.kingSafety 4) (ind.centerControl - 6)
    with hks | hks
  · have hks8 : ind.kingSafety ≤ -8 := by
      unfold cppDiv at hks; split_ifs at hks <;> omega
    have hks3 : cppDiv ind.kingSafety 3 ≤ -2 := by
      unfold cppDiv; split_ifs <;> omega
    have hD3 : clampI (10 - ind.centerControl + cppDiv ind.kingSafety 3)
        5 15 ≤ 8 := clampI_le _ _ _ _ (by omega) (by omega)
    simp only [Eval.dynamic_current_style, Eval.styleInRange]
    split_ifs with hgt <;> dsimp only at hgt ⊢ <;> omega
  · have hA3 : clampI (20 + ind.centerControl - cppDiv ind.kingSafety 4)
        15 28 ≤ 25 := clampI_le _ _ _ _ (by omega) (by omega)
    simp only [Eval.dynamic_current_style, Eval.styleInRange]
    split_ifs with hgt <;> dsimp only at hgt ⊢ <;> omega

theorem moveCounter_set_currentStyle (x : Eval.StyleState) (v : Int) :
    ({ x with moveCounter := v } : Eval.StyleState).currentStyle =
      x.currentStyle := rfl

theorem apply_penalty_progression_currentStyle (s : Eval.StyleState) :
    (Eval.apply_penalty_progression s).currentStyle = s.currentStyle := by
  simp only [Eval.apply_penalty_progression]
  split_ifs <;> rfl

theorem recalibrate_hysteresis_currentStyle (b sc : Int)
    (s : Eval.StyleState) :
    (Eval.recalibrate_hysteresis b sc s).currentStyle = s.currentStyle := by
  simp only [Eval.recalibrate_hysteresis]
  split_ifs <;> rfl

theorem nnue_update_weights_currentStyle (u m : Bool) (mm mp ph : Int)
    (ind : Eval.PositionalIndicators) (t p c : Int) (s : Eval.StyleState) :
    (Eval.nnue_update_weights u m mm mp ph ind t p c s).1.currentStyle =
      s.currentStyle := by
  simp only [Eval.nnue_update_weights]
  split_ifs <;> rfl

theorem dynamic_style_decision_currentStyle (sc tm : Int)
    (s : Eval.StyleState) :
    (Eval.dynamic_style_decision sc tm s).2.currentStyle = s.currentStyle := by
  simp only [Eval.dynamic_style_decision]
  split_ifs <;> rfl

theorem recalibrate_enforce_range (u : Bool) (t : Int) (s : Eval.StyleState)
    (h : Eval.styleInRange s.currentStyle) :
    Eval.styleInRange (Eval.recalibrate_enforce u t s).currentStyle := by
  simp only [Eval.recalibrate_enforce,
    apply_ite Eval.StyleState.currentStyle, moveCounter_set_currentStyle]
  split_ifs
  · exact set_shashin_style_str_range _ _ _
  · exact h

theorem recalibrate_parameters_range (u : Bool) (b sc : Int)
    (s : Eval.StyleState) (h : Eval.styleInRange s.currentStyle) :
    Eval.styleInRange (Eval.recalibrate_parameters u b sc s).currentStyle := by
  simp only [Eval.recalibrate_parameters]
  split_ifs
  · exact h
  · apply recalibrate_enforce_range
    rw [recalibrate_hysteresis_currentStyle]
    exact h

theorem dynamic_apply_decision_range (u : Bool) (b sc n : Int)
    (st : Eval.Style) (s : Eval.StyleState)
    (h : Eval.styleInRange s.currentStyle) :
    Eval.styleInRange
      (Eval.dynamic_apply_decision u b sc n st s).currentStyle := by
  simp only [Eval.dynamic_apply_decision,
    apply_ite Eval.StyleState.currentStyle, moveCounter_set_currentStyle,
    ite_self]
  apply recalibrate_parameters_range
  rw [apply_penalty_progression_currentStyle]
  split_ifs
  · exact set_shashin_style_range _ _
  · exact h

theorem dynamic_core_range (inp : Eval.StyleInput) (s : Eval.StyleState)
    (h0 : 0 ≤ inp.ind.centerControl) (h4 : inp.ind.centerControl ≤ 4) :
    Eval.styleInRange (Eval.dynamic_core inp s).currentStyle := by
  simp only [Eval.dynamic_core]
  split_ifs
  · exact dynamic_current_style_range _ _ h0 h4
  · exact dynamic_current_style_range _ _ h0 h4
  · apply dynamic_apply_decision_range
    rw [dynamic_style_decision_currentStyle]
    exact dynamic_current_style_range _ _ h0 h4

theorem dynamic_shashin_style_range (inp : Eval.StyleInput)
    (s : Eval.StyleState) (h0 : 0 ≤ inp.ind.centerControl)
    (h4 : inp.ind.centerControl ≤ 4)
    (h : Eval.styleInRange s.currentStyle) :
    Eval.styleInRange (Eval.dynamic_shashin_style inp s).currentStyle := by
  simp only [Eval.dynamic_shashin_style]
  split_ifs
  · exact h
  · exact h
  · exact h
  · exact h
  · exact dynamic_core_range inp _ h0 h4

theorem applyStyleOp_range (s : Eval.StyleState) (op : Eval.StyleOp)
    (hop : Eval.StyleOpOK op) (h : Eval.styleInRange s.currentStyle) :
    Eval.styleInRange (Eval.applyStyleOp s op).currentStyle := by
  cases op with
  | setStyle st => exact set_shashin_style_range st s
  | setStyleStr u n => exact set_shashin_style_str_range u n s
  | customBlend t p c => exact set_shashin_custom_blend_range t p c s
  | dyn inp => exact dynamic_shashin_style_range inp s hop.1 hop.2 h

/-- C5: after any sequence of style operations (set_shashin_style by
enum or by name, set_shashin_custom_blend, dynamic_shashin_style) from a
state whose CurrentStyle fields are in [0,30] — the initial neutral
state in particular — the attack, defense and balance fields of
CurrentStyle remain in [0,30].  The dynamic inputs carry the
board-derived bound centerControl ∈ [0,4] (it counts occupied squares
among the four central squares); under it the over-70 rebalancing branch
of dynamic_shashin_style can never push balance above 30. -/
theorem c5_style_fields_in_range (s0 : Eval.StyleState)
    (ops : List Eval.StyleOp) (h0 : Eval.styleInRange s0.currentStyle)
    (hops : ∀ op ∈ ops, Eval.StyleOpOK op) :
    Eval.styleInRange (Eval.runStyleOps s0 ops).currentStyle := by
  induction ops generalizing s0 with
  | nil => exact h0
  | cons op rest ih =>
      exact ih (Eval.applyStyleOp s0 op)
        (applyStyleOp_range s0 op (hops op (by simp)) h0)
        (fun o ho => hops o (by simp [ho]))

theorem c5_style_fields_in_range_witness :
    Eval.styleInRange Eval.initialStyleState.currentStyle
    ∧ (∀ op ∈ [Eval.StyleOp.setStyle Eval.Style.Tal,
          Eval.StyleOp.customBlend 80 0 50,
          Eval.StyleOp.dyn (Eval.dynInput 400 1500),
          Eval.StyleOp.setStyleStr true "Petrosian"], Eval.StyleOpOK op)
    ∧ Eval.styleInRange
        (Eval.runStyleOps Eval.initialStyleState
          [Eval.StyleOp.setStyle Eval.Style.Tal,
           Eval.StyleOp.customBlend 80 0 50,
           Eval.StyleOp.dyn (Eval.dynInput 400 1500),
           Eval.StyleOp.setStyleStr true "Petrosian"]).currentStyle :=
  ⟨by decide, by decide,
   c5_style_fields_in_range Eval.initialStyleState _ (by decide) (by decide)⟩

theorem readU32_eq_some {s : List Nat} {n : Nat} {r : List Nat}
    (hs : ∀ b ∈ s, b < 256) (h : NNUE.readU32 s = some (n, r)) :
    n < 2 ^ 32 ∧ s = NNUE.writeU32 n ++ r := by
  match s, h with
  | b0 :: b1 :: b2 :: b3 :: rest, h =>
    have hb0 : b0 < 256 := hs b0 (by simp)
    have hb1 : b1 < 256 := hs b1 (by simp)
    have hb2 : b2 < 256 := hs b2 (by simp)
    have hb3 : b3 < 256 := hs b3 (by simp)
    simp only [NNUE.readU32, Option.some.injEq, Prod.mk.injEq] at h
    obtain ⟨hn, hr⟩ := h
    subst hn hr
    refine ⟨by omega, ?_⟩
    simp only [NNUE.writeU32, List.cons_append, List.nil_append,
      List.cons.injEq, and_true]
    refine ⟨by omega, by omega, by omega, by omega⟩

theorem readU32_write (n : Nat) (r : List Nat) (h : n < 2 ^ 32) :
    NNUE.readU32 (NNUE.writeU32 n ++ r) = some (n, r) := by
  simp only [NNUE.writeU32, List.cons_append, List.nil_append, NNUE.readU32,
    Option.some.injEq, Prod.mk.injEq, and_true]
  omega

theorem readBytes_eq_some {n : Nat} {s t r : List Nat}
    (h : NNUE.readBytes n s = some (t, r)) : t.length = n ∧ s = t ++ r := by
  unfold NNUE.readBytes at h
  split_ifs at h with hle
  simp only [Option.some.injEq, Prod.mk.injEq] at h
  obtain ⟨ht, hr⟩ := h
  subst ht hr
  exact ⟨by simp [List.length_take]; omega,
    (List.take_append_drop n s).symm⟩

theorem readBytes_write (t r : List Nat) :
    NNUE.readBytes t.length (t ++ r) = some (t, r) := by
  unfold NNUE.readBytes
  rw [if_pos (by simp only [List.length_append]; omega)]
  rw [List.take_left, List.drop_left]

theorem readBlock_eq_some {hash len : Nat} {s blob r : List Nat}
    (hs : ∀ b ∈ s, b < 256)
    (h : NNUE.readBlock hash len s = some (blob, r)) :
    hash < 2 ^ 32 ∧ blob.length = len
      ∧ s = NNUE.writeBlock hash blob ++ r := by
  unfold NNUE.readBlock at h
  cases hru : NNUE.readU32 s with
  | none => rw [hru] at h; simp at h
  | some pr =>
    obtain ⟨hd, s1⟩ := pr
    rw [hru] at h
    simp only [Option.bind_eq_bind, Option.some_bind] at h
    split_ifs at h with hne
    have he : hd = hash := not_ne_iff.mp hne
    obtain ⟨hu1, hu2⟩ := readU32_eq_some hs hru
    obtain ⟨hl, hr⟩ := readBytes_eq_some h
    subst he
    refine ⟨hu1, hl, ?_⟩
    rw [hu2, hr, NNUE.writeBlock, List.append_assoc]

theorem readBlock_write (hash len : Nat) (blob r : List Nat)
    (hh : hash < 2 ^ 32) (hl : blob.length = len) :
    NNUE.readBlock hash len (NNUE.writeBlock hash blob ++ r) =
      some (blob, r) := by
  unfold NNUE.readBlock NNUE.writeBlock
  rw [List.append_assoc, readU32_write hash (blob ++ r) hh]
  simp only [Option.bind_eq_bind, Option.some_bind]
  rw [if_neg (by simp), ← hl]
  exact readBytes_write blob r

theorem read_header_eq_some {a : NNUE.Arch} {s : List Nat} {hv : Nat}
    {desc r : List Nat} (hs : ∀ b ∈ s, b < 256)
    (h : NNUE.read_header a s = some (hv, desc, r)) :
    a.version < 2 ^ 32 ∧ hv < 2 ^ 32 ∧ desc.length < 2 ^ 32
      ∧ s = NNUE.write_header a hv desc ++ r := by
  unfold NNUE.read_header at h
  cases h1 : NNUE.readU32 s with
  | none => rw [h1] at h; simp at h
  | some p1 =>
    obtain ⟨version, s1⟩ := p1
    rw [h1] at h
    simp only [Option.bind_eq_bind, Option.some_bind] at h
    obtain ⟨hv1, hs1eq⟩ := readU32_eq_some hs h1
    have hs1 : ∀ b ∈ s1, b < 256 := fun b hb =>
      hs b (by rw [hs1eq]; exact List.mem_append_right _ hb)
    cases h2 : NNUE.readU32 s1 with
    | none => rw [h2] at h; simp at h
    | some p2 =>
      obtain ⟨hval, s2⟩ := p2
      rw [h2] at h
      simp only [Option.bind_eq_bind, Option.some_bind] at h
      obtain ⟨hv2, hs2eq⟩ := readU32_eq_some hs1 h2
      have hs2 : ∀ b ∈ s2, b < 256 := fun b hb =>
        hs1 b (by rw [hs2eq]; exact List.mem_append_right _ hb)
      cases h3 : NNUE.readU32 s2 with
      | none => rw [h3] at h; simp at h
      | some p3 =>
        obtain ⟨size, s3⟩ := p3
        rw [h3] at h
        simp only [Option.bind_eq_bind, Option.some_bind] at h
        obtain ⟨hv3, hs3eq⟩ := readU32_eq_some hs2 h3
        split_ifs at h with hver
        cases h4 : NNUE.readBytes size s3 with
        | none => rw [h4] at h; simp at h
        | some p4 =>
          obtain ⟨desc4, s4⟩ := p4
          rw [h4] at h
          simp only [Option.pure_def, Option.bind_eq_bind, Option.some_bind,
            Option.some.injEq, Prod.mk.injEq] at h
          obtain ⟨hhv, hdesc, hr⟩ := h
          obtain ⟨hlen4, hs4eq⟩ := readBytes_eq_some h4
          subst hhv hdesc hr
          have hverv : version = a.version := not_ne_iff.mp hver
          refine ⟨by omega, hv2, by omega, ?_⟩
          rw [hs1eq, hs2eq, hs3eq, hs4eq, NNUE.write_header, hverv, hlen4]
          simp [List.append_assoc]

theorem read_header_write (a : NNUE.Arch) (hv : Nat) (desc r : List Nat)
    (hva : a.version < 2 ^ 32) (hh : hv < 2 ^ 32)
    (hd : desc.length < 2 ^ 32) :
    NNUE.read_header a (NNUE.write_header a hv desc ++ r) =
      some (hv, desc, r) := by
  unfold NNUE.read_header NNUE.write_header
  simp only [List.append_assoc]
  rw [readU32_write a.version _ hva]
  simp only [Option.bind_eq_bind, Option.some_bind]
  rw [readU32_write hv _ hh]
  simp only [Option.some_bind]
  rw [readU32_write desc.length _ hd]
  simp only [Option.some_bind]
  rw [if_neg (by simp)]
  rw [readBytes_write desc r]
  rfl

theorem setNetsFrom_cons_shift (x : List Nat) (nets : List (List Nat))
    (i : Nat) (bs : List (List Nat)) :
    NNUE.setNetsFrom (x :: nets) (i + 1) bs =
      x :: NNUE.setNetsFrom nets i bs := by
  induction bs generalizing x nets i with
  | nil => rfl
  | cons b bs ih =>
      simp only [NNUE.setNetsFrom, List.set]
      exact ih x (nets.set i b) (i + 1)

theorem setNetsFrom_zero (nets blobs : List (List Nat))
    (h : nets.length = blobs.length) :
    NNUE.setNetsFrom nets 0 blobs = blobs := by
  induction blobs generalizing nets with
  | nil =>
      cases nets with
      | nil => rfl
      | cons x xs => simp at h
  | cons b bs ih =>
      cases nets with
      | nil => simp at h
      | cons x xs =>
          simp only [NNUE.setNetsFrom, List.set]
          rw [setNetsFrom_cons_shift]
          simp only [List.cons.injEq, true_and]
          exact ih xs (by simpa using h)

theorem loadNets_preserves (a : NNUE.Arch) (n : Nat) : ∀ (i : Nat)
    (s : List Nat) (st : NNUE.TierState),
    (NNUE.loadNets a n i s st).2.fileName = st.fileName
    ∧ (NNUE.loadNets a n i s st).2.selectedName = st.selectedName := by
  induction n with
  | zero => intro i s st; exact ⟨rfl, rfl⟩
  | succ n ih =>
      intro i s st
      rw [NNUE.loadNets]
      cases NNUE.readBlock a.netHash a.netLen s with
      | none => exact ⟨rfl, rfl⟩
      | some p =>
          obtain ⟨blob, s'⟩ := p
          exact ih (i + 1) s' _

theorem loadNets_eq_true {a : NNUE.Arch} {n : Nat} : ∀ {i : Nat}
    {s : List Nat} {st : NNUE.TierState},
    (∀ b ∈ s, b < 256) → (NNUE.loadNets a n i s st).1 = true →
    ∃ blobs : List (List Nat), blobs.length = n
      ∧ (∀ b ∈ blobs, b.length = a.netLen)
      ∧ s = (blobs.map (NNUE.writeBlock a.netHash)).flatten := by
  induction n with
  | zero =>
      intro i s st _hs h
      simp only [NNUE.loadNets, decide_eq_true_eq] at h
      exact ⟨[], rfl, by simp, by simp [h]⟩
  | succ n ih =>
      intro i s st hs h
      rw [NNUE.loadNets] at h
      cases hrb : NNUE.readBlock a.netHash a.netLen s with
      | none => rw [hrb] at h; simp at h
      | some p =>
          obtain ⟨blob, s'⟩ := p
          rw [hrb] at h
          obtain ⟨_, hlen, hseq⟩ := readBlock_eq_some hs hrb
          have hs' : ∀ b ∈ s', b < 256 := fun b hb =>
            hs b (by rw [hseq]; exact List.mem_append_right _ hb)
          obtain ⟨bs, hbl, hblen, hfl⟩ := ih hs' h
          refine ⟨blob :: bs, by simp [hbl], ?_, ?_⟩
          · intro b hb
            rcases List.mem_cons.mp hb with rfl | hb
            · exact hlen
            · exact hblen b hb
          · rw [hseq, hfl]; simp

theorem loadNets_write (a : NNUE.Arch) (blobs : List (List Nat))
    (hh : a.netHash < 2 ^ 32)
    (hlen : ∀ b ∈ blobs, b.length = a.netLen) : ∀ (i : Nat)
    (st : NNUE.TierState),
    NNUE.loadNets a blobs.length i
        ((blobs.map (NNUE.writeBlock a.netHash)).flatten) st =
      (true, { st with params :=
        { st.params with
            nets := NNUE.setNetsFrom st.params.nets i blobs } }) := by
  induction blobs with
  | nil => intro i st; simp [NNUE.loadNets, NNUE.setNetsFrom]
  | cons b bs ih =>
      intro i st
      simp only [List.length_cons, List.map_cons, List.flatten_cons]
      rw [NNUE.loadNets]
      rw [readBlock_write a.netHash a.netLen b _ hh (hlen b (by simp))]
      exact ih (fun x hx => hlen x (by simp [hx])) (i + 1) _


theorem load_eval_write (a : NNUE.Arch) (name : String)
    (stOld st : NNUE.TierState) (hW : a.WF) (hT : NNUE.TierWF a stOld) :
    NNUE.load_eval a name (NNUE.write_parameters a stOld) st =
      (true, { st with
        params := stOld.params
        fileName := name
        netDescription := stOld.netDescription }) := by
  obtain ⟨⟨ft0, nets0⟩, fn0, nd0, sn0⟩ := stOld
  obtain ⟨hv, hhash, hft, hnet⟩ := hW
  obtain ⟨hftl, hnl, hbl, hdl⟩ := hT
  have h1 : NNUE.read_header a
      (NNUE.write_header a a.hashValue nd0
        ++ (NNUE.writeBlock a.ftHash ft0
          ++ (nets0.map (NNUE.writeBlock a.netHash)).flatten)) =
      some (a.hashValue, nd0,
        NNUE.writeBlock a.ftHash ft0
          ++ (nets0.map (NNUE.writeBlock a.netHash)).flatten) :=
    read_header_write a a.hashValue nd0 _ hv hhash hdl
  unfold NNUE.load_eval NNUE.write_parameters
  rw [List.append_assoc, h1]
  simp only []
  rw [if_neg (not_ne_iff.mpr rfl)]
  rw [readBlock_write a.ftHash a.ftLen _ _ hft hftl]
  simp only []
  rw [← hnl]
  rw [loadNets_write a nets0 hnet hbl 0 _]
  rw [setNetsFrom_zero _ _ (by simp [NNUE.initParams, hnl])]

theorem load_eval_fileName (a : NNUE.Arch) (name : String) (s : List Nat)
    (st : NNUE.TierState) :
    (NNUE.load_eval a name s st).2.fileName = name
    ∧ (NNUE.load_eval a name s st).2.selectedName = st.selectedName := by
  unfold NNUE.load_eval
  cases NNUE.read_header a s with
  | none => exact ⟨rfl, rfl⟩
  | some p =>
      obtain ⟨hval, desc, r⟩ := p
      simp only []
      split_ifs
      · exact ⟨rfl, rfl⟩
      · cases NNUE.readBlock a.ftHash a.ftLen r with
        | none => exact ⟨rfl, rfl⟩
        | some p2 =>
            obtain ⟨ft, r2⟩ := p2
            exact loadNets_preserves a a.layerStacks 0 r2 _

/-- C2: a counterexample to "whenever load_eval returns false, the
previously loaded parameters for that tier are left unchanged": loading
an empty stream over previously loaded parameters fails, yet the
parameters have been zero-reinitialized and the recorded file name
replaced; only the caller-owned selected-name record survives. -/
theorem c2_load_fail_mutates_cex :
    (NNUE.load_eval NNUE.arch0 "new.nnue" [] NNUE.tier0).1 = false
    ∧ (NNUE.load_eval NNUE.arch0 "new.nnue" [] NNUE.tier0).2.params
        = NNUE.initParams NNUE.arch0
    ∧ (NNUE.load_eval NNUE.arch0 "new.nnue" [] NNUE.tier0).2.params
        ≠ NNUE.tier0.params
    ∧ (NNUE.load_eval NNUE.arch0 "new.nnue" [] NNUE.tier0).2.fileName
        = "new.nnue"
    ∧ (NNUE.load_eval NNUE.arch0 "new.nnue" [] NNUE.tier0).2.selectedName
        = NNUE.tier0.selectedName := by decide

/-- C2 (amended): for a well-formed architecture and a byte stream,
load_eval succeeds exactly on the streams consisting of a well-formed
header carrying the tier's expected hash, the feature-transformer block,
exactly layerStacks sub-network blocks and nothing after (so it fails on
early exhaustion, version mismatch, hash mismatch and trailing bytes);
on every call, failed or not, the recorded file name becomes the new
name — only the caller-owned selected-name record is unchanged. -/
theorem c2_load_eval_amended (a : NNUE.Arch) (name : String) (s : List Nat)
    (st : NNUE.TierState) (hW : a.WF) (hs : ∀ b ∈ s, b < 256) :
    ((NNUE.load_eval a name s st).1 = true ↔ NNUE.ValidStream a s)
    ∧ (NNUE.load_eval a name s st).2.fileName = name
    ∧ (NNUE.load_eval a name s st).2.selectedName = st.selectedName := by
  obtain ⟨hv, hhash, hft, hnet⟩ := hW
  refine ⟨?_, (load_eval_fileName a name s st).1,
    (load_eval_fileName a name s st).2⟩
  unfold NNUE.load_eval
  cases h1 : NNUE.read_header a s with
  | none =>
      simp only []
      constructor
      · intro h; exact False.elim (by simpa using h)
      · intro hvs
        exfalso
        obtain ⟨desc, ft, blobs, hd, hfl, hlb, hlen, hse⟩ := hvs
        rw [hse, List.append_assoc,
          read_header_write a a.hashValue desc _ hv hhash hd] at h1
        exact Option.noConfusion h1
  | some p =>
      obtain ⟨hval, desc, r⟩ := p
      obtain ⟨hv1, hv2, hv3, hseq⟩ := read_header_eq_some hs h1
      have hr : ∀ b ∈ r, b < 256 := fun b hb =>
        hs b (by rw [hseq]; exact List.mem_append_right _ hb)
      simp only []
      split_ifs with hne
      · constructor
        · intro h; exact False.elim (by simpa using h)
        · intro hvs
          exfalso
          obtain ⟨desc', ft', blobs, hd, hfl, hlb, hlen, hse⟩ := hvs
          rw [hse, List.append_assoc,
            read_header_write a a.hashValue desc' _ hv hhash hd] at h1
          simp only [Option.some.injEq, Prod.mk.injEq] at h1
          exact hne h1.1.symm
      · have hvala : hval = a.hashValue := not_ne_iff.mp hne
        cases h2 : NNUE.readBlock a.ftHash a.ftLen r with
        | none =>
            simp only []
            constructor
            · intro h; exact False.elim (by simpa using h)
            · intro hvs
              exfalso
              obtain ⟨desc', ft', blobs, hd, hfl, hlb, hlen, hse⟩ := hvs
              rw [hse, List.append_assoc,
                read_header_write a a.hashValue desc' _ hv hhash hd] at h1
              simp only [Option.some.injEq, Prod.mk.injEq] at h1
              obtain ⟨-, -, hre⟩ := h1
              rw [← hre, readBlock_write a.ftHash a.ftLen ft' _ hft hfl] at h2
              exact Option.noConfusion h2
        | some p2 =>
            obtain ⟨ft, r2⟩ := p2
            obtain ⟨-, hftlen, hr2eq⟩ := readBlock_eq_some hr h2
            have hr2 : ∀ b ∈ r2, b < 256 := fun b hb =>
              hr b (by rw [hr2eq]; exact List.mem_append_right _ hb)
            simp only []
            constructor
            · intro h
              obtain ⟨blobs, hlb, hlen, hfl2⟩ := loadNets_eq_true hr2 h
              refine ⟨desc, ft, blobs, hv3, hftlen, hlb, hlen, ?_⟩
              rw [hseq, hr2eq, hfl2, hvala]
              exact (List.append_assoc _ _ _).symm
            · intro hvs
              obtain ⟨desc', ft', blobs, hd, hfl, hlb, hlen, hse⟩ := hvs
              rw [hse, List.append_assoc,
                read_header_write a a.hashValue desc' _ hv hhash hd] at h1
              simp only [Option.some.injEq, Prod.mk.injEq] at h1
              obtain ⟨hh1, hh2, hh3⟩ := h1
              rw [← hh3, readBlock_write a.ftHash a.ftLen ft' _ hft hfl] at h2
              simp only [Option.some.injEq, Prod.mk.injEq] at h2
              obtain ⟨hf1, hf2⟩ := h2
              rw [← hf2, ← hlb, loadNets_write a blobs hnet hlen 0 _]

theorem c2_load_eval_amended_witness :
    NNUE.arch0.WF ∧ (∀ b ∈ NNUE.stream0, b < 256)
    ∧ ((NNUE.load_eval NNUE.arch0 "x.nnue" NNUE.stream0 NNUE.tier0).1 = true
        ↔ NNUE.ValidStream NNUE.arch0 NNUE.stream0) :=
  ⟨by decide, by decide,
   (c2_load_eval_amended NNUE.arch0 "x.nnue" NNUE.stream0 NNUE.tier0
     (by decide) (by decide)).1⟩

/-- C9: a counterexample to "save_eval fails if and only if no prior
successful load has associated a file name with that tier": load_eval
records the file name before parsing, so after a failed load (empty
stream) the save succeeds even though no successful load ever
happened. -/
theorem c9_save_after_failed_load_cex :
    NNUE.save_eval NNUE.arch0
      { params := NNUE.initParams NNUE.arch0
        fileName := ""
        netDescription := []
        selectedName := "" } = none
    ∧ (NNUE.load_eval NNUE.arch0 "new.nnue" []
        { params := NNUE.initParams NNUE.arch0
          fileName := ""
          netDescription := []
          selectedName := "" }).1 = false
    ∧ NNUE.save_eval NNUE.arch0
        (NNUE.load_eval NNUE.arch0 "new.nnue" []
          { params := NNUE.initParams NNUE.arch0
            fileName := ""
            netDescription := []
            selectedName := "" }).2 ≠ none := by decide

/-- C9 (amended): save_eval fails exactly when the tier's recorded file
name is empty; the name is recorded by any load attempt, successful or
not; on success save_eval writes the header followed by the parameter
blocks (write_parameters), and for a well-formed architecture and
fitting parameters that saved stream loads back successfully,
reproducing the saved parameters and description. -/
theorem c9_save_eval_amended (a : NNUE.Arch) (st st0 : NNUE.TierState)
    (name : String) (s : List Nat) (hW : a.WF) (hT : NNUE.TierWF a st) :
    (NNUE.save_eval a st = none ↔ st.fileName = "")
    ∧ (NNUE.load_eval a name s st0).2.fileName = name
    ∧ (st.fileName ≠ "" →
        NNUE.save_eval a st = some (NNUE.write_parameters a st))
    ∧ NNUE.load_eval a name (NNUE.write_parameters a st) st0 =
        (true, { st0 with
          params := st.params
          fileName := name
          netDescription := st.netDescription }) := by
  refine ⟨?_, (load_eval_fileName a name s st0).1, ?_,
    load_eval_write a name st st0 hW hT⟩
  · unfold NNUE.save_eval
    split_ifs with h
    · simp [h]
    · simp [h]
  · intro h
    unfold NNUE.save_eval
    rw [if_neg h]

theorem c9_save_eval_amended_witness :
    NNUE.arch0.WF ∧ NNUE.TierWF NNUE.arch0 NNUE.tier0
    ∧ (NNUE.save_eval NNUE.arch0 NNUE.tier0 = none
        ↔ NNUE.tier0.fileName = "")
    ∧ NNUE.load_eval NNUE.arch0 "x.nnue"
        (NNUE.write_parameters NNUE.arch0 NNUE.tier0) NNUE.tier0 =
      (true, { NNUE.tier0 with
        params := NNUE.tier0.params
        fileName := "x.nnue"
        netDescription := NNUE.tier0.netDescription }) :=
  ⟨by decide, by decide,
   (c9_save_eval_amended NNUE.arch0 NNUE.tier0 NNUE.tier0 "x.nnue" []
     (by decide) (by decide)).1,
   (c9_save_eval_amended NNUE.arch0 NNUE.tier0 NNUE.tier0 "x.nnue" []
     (by decide) (by decide)).2.2.2⟩
